import Mathlib

/-!
Verification of the Blue-Rabat intraday strategy runner (src/main.py).

Prices are modelled as exact rationals (the source uses Python floats; every
claim here is about exact recurrences and order comparisons, not rounding).
Fallible source operations (division by zero, indexing an empty series) are
modelled with Option. The broker is modelled by the data it returns to the
strategy (positions, open trades, account summary, trades), exactly the
projections the source code reads.
-/

/-- A raw OHLC bar, as consumed from the broker stream (the `df` columns
`open`, `high`, `low`, `close` read by `compute_heikin_ashi`). -/
structure Bar where
  open_ : ℚ
  high : ℚ
  low : ℚ
  close : ℚ
deriving Repr, DecidableEq, Inhabited

/-- The per-row Heikin-Ashi close: `(df['open'] + df['high'] + df['low'] + df['close']) / 4`. -/
def avgBar (b : Bar) : ℚ :=
  (b.open_ + b.high + b.low + b.close) / 4

/-- The four columns of the Heikin-Ashi DataFrame built by `compute_heikin_ashi`. -/
structure HaBars where
  haOpen : List ℚ
  haHigh : List ℚ
  haLow : List ℚ
  haClose : List ℚ
deriving Repr, DecidableEq, Inhabited

/-- The loop body of `compute_heikin_ashi` for indices `i ≥ 1`, carrying the
previous row's `ha_open` and `ha_close` values (`prevOpen`, `prevClose`):
`ha_open[i] = (ha_open[i-1] + ha_close[i-1]) / 2`;
`ha_high[i] = max(df['high'][i], ha_open[i], ha_close[i])`;
`ha_low[i] = min(df['low'][i], ha_open[i], ha_close[i])`. -/
def compute_heikin_ashi_from (prevOpen prevClose : ℚ) : List Bar → HaBars
  | [] => ⟨[], [], [], []⟩
  | b :: rest =>
    let hc := avgBar b
    let ho := (prevOpen + prevClose) / 2
    let hh := max b.high (max ho hc)
    let hl := min b.low (min ho hc)
    let t := compute_heikin_ashi_from ho hc rest
    ⟨ho :: t.haOpen, hh :: t.haHigh, hl :: t.haLow, hc :: t.haClose⟩

/-- Model of `IBKRConnector.compute_heikin_ashi`: `ha_close` is the row average; the
arrays `ha_open`, `ha_high`, `ha_low` start as copies of `ha_close` (so index 0
keeps the copied value in all three) and the loop `for i in range(1, len(df))`
rewrites the entries from index 1 on. -/
def compute_heikin_ashi : List Bar → HaBars
  | [] => ⟨[], [], [], []⟩
  | b :: rest =>
    let hc := avgBar b
    let t := compute_heikin_ashi_from hc hc rest
    ⟨hc :: t.haOpen, hc :: t.haHigh, hc :: t.haLow, hc :: t.haClose⟩

/-- The loop of `compute_ema` for indices `i ≥ 1`, carrying `ema[i-1]` in `prev`:
`ema[i] = prices[i] * alpha + ema[i-1] * (1 - alpha)`. -/
def ema_from (alpha : ℚ) (prev : ℚ) : List ℚ → List ℚ
  | [] => []
  | p :: rest =>
    let e := p * alpha + prev * (1 - alpha)
    e :: ema_from alpha e rest

/-- Model of `IBKRConnector.compute_ema`: `alpha = 2 / (period + 1)` (a `ZeroDivisionError`
when `period == -1`, modelled as `none`), then `ema.iloc[0] = prices.iloc[0]`
(an IndexError on an empty series, modelled as `none`) and the recurrence for
`i in range(1, len(prices))`. There is no validation of the period. -/
def compute_ema (prices : List ℚ) (period : ℤ) : Option (List ℚ) :=
  if period + 1 = 0 then none
  else
    match prices with
    | [] => none
    | p :: rest => some (p :: ema_from (2 / ((period : ℚ) + 1)) p rest)

example : compute_heikin_ashi [⟨0, 4, 0, 0⟩] = ⟨[1], [1], [1], [1]⟩ := by
  norm_num [compute_heikin_ashi, compute_heikin_ashi_from, avgBar]
example : compute_ema [1, 2] 0 = some [1, 3] := by
  norm_num [compute_ema, ema_from]
example : compute_ema [1, 2] (-1) = none := by
  norm_num [compute_ema]
example : compute_ema [] 5 = none := by
  norm_num [compute_ema]
example :
    compute_heikin_ashi [⟨0, 4, 0, 0⟩, ⟨2, 6, 2, 2⟩] =
      ⟨[1, 1], [1, 6], [1, 1], [1, 3]⟩ := by
  norm_num [compute_heikin_ashi, compute_heikin_ashi_from, avgBar]

/-- The Heikin-Ashi DataFrame after the `'ema'` column has been assigned
(`self.s1_ha_bars['ema'] = self.compute_ema(...)`). All columns of one frame
have the row count of the frame. -/
structure HaDf where
  open_ : List ℚ
  high : List ℚ
  low : List ℚ
  close : List ℚ
  ema : List ℚ
deriving Repr, DecidableEq, Inhabited

/-- The row count of the frame, `len(self.s1_ha_bars)`. -/
def HaDf.len (df : HaDf) : Nat := df.close.length

/-- Join an `'ema'` column onto a Heikin-Ashi frame. -/
def HaBars.withEma (ha : HaBars) (e : List ℚ) : HaDf :=
  ⟨ha.haOpen, ha.haHigh, ha.haLow, ha.haClose, e⟩

/-- Model of `on_s1_bar_update`, which recomputes the S1 indicator state:
Heikin-Ashi bars from the raw bars, then an `'ema'` column computed over
`df['close']` — the RAW bar close prices of `util.df(bars)`, not the
Heikin-Ashi closes. -/
def on_s1_bar_update (bars : List Bar) (ema_period : ℤ) : Option HaDf :=
  let ha := compute_heikin_ashi bars
  match compute_ema (bars.map Bar.close) ema_period with
  | none => none
  | some e => some (ha.withEma e)

/-- The S1 indicator state built in `start` (and the state `on_s2_bar_update`
builds for S2): the `'ema'` column is computed over the Heikin-Ashi close
column `self.s1_ha_bars['close']`. This is the behaviour the spec describes
for every update path. -/
def s1_indicator_init (bars : List Bar) (ema_period : ℤ) : Option HaDf :=
  let ha := compute_heikin_ashi bars
  match compute_ema ha.haClose ema_period with
  | none => none
  | some e => some (ha.withEma e)

/-- Order side, `trade.order.action` / the first argument of `MarketOrder` and
`StopOrder`. -/
inductive OrderAction where
  | BUY : OrderAction
  | SELL : OrderAction
deriving Repr, DecidableEq

/-- The kind of order the strategy emits: `MarketOrder`, `StopOrder`, or an
`Order` with `orderType='TRAIL'`. -/
inductive OrderKind where
  | market : OrderKind
  | stop : OrderKind
  | trail : OrderKind
deriving Repr, DecidableEq

/-- An order as handed to `self.ib.placeOrder`, with the fields the source
sets: action, quantity, kind, the stop price of a `StopOrder`, the `auxPrice`
and `trailStopPrice` of a trailing order, `orderRef`, `ocaGroup`, and
`outsideRth`. -/
structure OrderIntent where
  action : OrderAction
  quantity : ℚ
  kind : OrderKind
  stopPrice : Option ℚ
  auxPrice : Option ℚ
  trailStopPrice : Option ℚ
  orderRef : String
  ocaGroup : Option String
  outsideRth : Bool
deriving Repr, DecidableEq

/-- The entry order built by `condition1_entry` / `condition2_entry`:
`MarketOrder(action, int(self.config['size']), orderRef="entry")` with
`outsideRth = True`. -/
def entryOrder (a : OrderAction) (size : ℤ) : OrderIntent :=
  { action := a, quantity := (size : ℚ), kind := OrderKind.market,
    stopPrice := none, auxPrice := none, trailStopPrice := none,
    orderRef := "entry", ocaGroup := none, outsideRth := true }

/-- One element of `self.ib.positions()`: the contract symbol and the signed
position quantity. -/
structure Position where
  symbol : String
  position : ℚ
deriving Repr, DecidableEq

/-- One element of `self.ib.openTrades()`: the contract symbol and the order
reference tag. -/
structure OpenTrade where
  symbol : String
  orderRef : String
deriving Repr, DecidableEq

/-- One element of `self.ib.trades()`, as read by `manage_positions`: the
contract symbol and `orderStatus.avgFillPrice`. -/
structure TradeRecord where
  symbol : String
  avgFillPrice : ℚ
deriving Repr, DecidableEq

/-- One row of `self.ib.accountSummaryAsync()`: tag, currency and value. -/
structure AccountSummaryItem where
  tag : String
  currency : String
  value : ℚ
deriving Repr, DecidableEq

/-- Model of `has_open_position`: some position row's contract symbol equals the S1
contract symbol (the signed quantity is not examined). -/
def has_open_position (positions : List Position) (s1_symbol : String) : Bool :=
  positions.any (fun p => p.symbol = s1_symbol)

/-- Model of `has_pending_trailing_stop_order`: some open trade's `orderRef` is
`"trailing_stop_loss"`. -/
def has_pending_trailing_stop_order (open_trades : List OpenTrade) : Bool :=
  open_trades.any (fun t => t.orderRef = "trailing_stop_loss")

/-- Model of `get_daily_pnl`: the value of the first account-summary row whose tag is
`'RealizedPnL'` and currency `'USD'`; `0.0` when no row matches. -/
def get_daily_pnl (account_summary : List AccountSummaryItem) : ℚ :=
  match account_summary.find?
      (fun s => decide (s.tag = "RealizedPnL" ∧ s.currency = "USD")) with
  | some s => s.value
  | none => 0

/-- Model of `is_pnl_within_limits`: `self.lower_pnl <= daily_pnl <= self.upper_pnl`. -/
def is_pnl_within_limits (lower_pnl upper_pnl : ℚ)
    (account_summary : List AccountSummaryItem) : Bool :=
  let daily_pnl := get_daily_pnl account_summary
  decide (lower_pnl ≤ daily_pnl ∧ daily_pnl ≤ upper_pnl)

/-- Model of `get_position_size`: the signed quantity of the first S1 position row, or
`0` when there is none. -/
def get_position_size (positions : List Position) (s1_symbol : String) : ℚ :=
  match positions.find? (fun p => p.symbol = s1_symbol) with
  | some p => p.position
  | none => 0

/-- Model of `condition1_entry`: requires `self.s1_ha_bars is not None` and more than
one row; compares the second-to-last Heikin-Ashi close with the second-to-last
`'ema'` value; `>` places a BUY entry market order, `<` a SELL, equality
nothing. -/
def condition1_entry (s1_ha_bars : Option HaDf) (size : ℤ) : List OrderIntent :=
  match s1_ha_bars with
  | none => []
  | some df =>
    if 1 < df.len then
      let second_last_close := df.close.getD (df.len - 2) 0
      let second_last_ema := df.ema.getD (df.len - 2) 0
      if second_last_close > second_last_ema then
        [entryOrder OrderAction.BUY size]
      else if second_last_close < second_last_ema then
        [entryOrder OrderAction.SELL size]
      else []
    else []

/-- Model of `condition2_entry`: requires an S1 frame with more than one row and an S2
frame with at least one row; BUY when S1's second-to-last Heikin-Ashi bar is
bullish, above its EMA, and S2's last close is below its EMA; SELL on the
mirrored condition. -/
def condition2_entry (s1_ha_bars s2_ha_bars : Option HaDf) (size : ℤ) :
    List OrderIntent :=
  match s1_ha_bars, s2_ha_bars with
  | some df1, some df2 =>
    if 1 < df1.len ∧ 0 < df2.len then
      let c1 := df1.close.getD (df1.len - 2) 0
      let o1 := df1.open_.getD (df1.len - 2) 0
      let e1 := df1.ema.getD (df1.len - 2) 0
      let c2 := df2.close.getD (df2.len - 1) 0
      let e2 := df2.ema.getD (df2.len - 1) 0
      if c1 > o1 ∧ c1 > e1 ∧ c2 < e2 then
        [entryOrder OrderAction.BUY size]
      else if c1 < o1 ∧ c1 < e1 ∧ c2 > e2 then
        [entryOrder OrderAction.SELL size]
      else []
    else []
  | _, _ => []

/-- The strategy state `entry` reads: the broker projections, the configured
PnL bounds, condition selector and size, the S1 symbol, and the two indicator
frames. -/
structure StrategyState where
  positions : List Position
  open_trades : List OpenTrade
  account_summary : List AccountSummaryItem
  lower_pnl : ℚ
  upper_pnl : ℚ
  condition : String
  size : ℤ
  s1_symbol : String
  s1_ha_bars : Option HaDf
  s2_ha_bars : Option HaDf
deriving Repr

/-- Model of `entry`: returns immediately when an S1 position exists or a trailing-stop
order is pending; then returns when the realized daily PnL is outside
`[lower_pnl, upper_pnl]`; only then dispatches on the configured condition. -/
def entry (st : StrategyState) : List OrderIntent :=
  if has_open_position st.positions st.s1_symbol
      || has_pending_trailing_stop_order st.open_trades then
    []
  else if !(is_pnl_within_limits st.lower_pnl st.upper_pnl st.account_summary) then
    []
  else if st.condition = "1" then
    condition1_entry st.s1_ha_bars st.size
  else if st.condition = "2" then
    condition2_entry st.s1_ha_bars st.s2_ha_bars st.size
  else []

/-- The data `on_order_filled(trade, fill)` reads from its event:
`trade.order.orderRef`, `trade.order.action`, `trade.order.totalQuantity`,
`trade.order.orderId` and `fill.execution.price`. -/
structure FillEvent where
  orderRef : String
  action : String
  totalQuantity : ℚ
  orderId : ℕ
  fillPrice : ℚ
deriving Repr, DecidableEq

/-- Model of `on_order_filled`, for an `"entry"`-tagged order: records
`entry_price = fill.execution.price`, sets
`oca_group = "oca_" + str(orderId)`, and places one `StopOrder` tagged
`"fixed_stop_loss"` in that OCA group with `outsideRth = True` — SELL at
`price - fixed_stoploss*0.25` after a BUY, BUY at `price + fixed_stoploss*0.25`
after a SELL. Returns the recorded entry price, the OCA group and the stop
order; `none` when nothing is placed (an action other than BUY/SELL leaves
`stop_order` unbound in the source — a `NameError`). -/
def on_order_filled (fixed_stoploss : ℚ) (ev : FillEvent) :
    Option (ℚ × String × OrderIntent) :=
  if ev.orderRef = "entry" then
    let filled_price := ev.fillPrice
    let stop_loss_distance := fixed_stoploss * 0.25
    let oca_group := "oca_" ++ toString ev.orderId
    if ev.action = "BUY" then
      some (filled_price, oca_group,
        { action := OrderAction.SELL, quantity := ev.totalQuantity,
          kind := OrderKind.stop,
          stopPrice := some (filled_price - stop_loss_distance),
          auxPrice := none, trailStopPrice := none,
          orderRef := "fixed_stop_loss", ocaGroup := some oca_group,
          outsideRth := true })
    else if ev.action = "SELL" then
      some (filled_price, oca_group,
        { action := OrderAction.BUY, quantity := ev.totalQuantity,
          kind := OrderKind.stop,
          stopPrice := some (filled_price + stop_loss_distance),
          auxPrice := none, trailStopPrice := none,
          orderRef := "fixed_stop_loss", ocaGroup := some oca_group,
          outsideRth := true })
    else none
  else none

/-- The state `manage_positions` reads: the broker projections, the cached S1
raw bars, the cached entry price and OCA group, the trailing-stop
configuration, and the S1 symbol. -/
structure ManageState where
  positions : List Position
  open_trades : List OpenTrade
  s1_bars : List Bar
  entry_price : Option ℚ
  trades : List TradeRecord
  oca_group : Option String
  trailing_stoploss : ℚ
  trailing_stoploss_trigger : ℚ
  s1_symbol : String
deriving Repr

/-- Model of `manage_positions`: only acts when the position size is nonzero and no
trailing-stop order is pending; needs a last S1 bar; recovers a missing entry
price from the last trade record when its symbol matches, else returns; then,
when the favorable excursion from the entry price reaches the trigger
distance, places one `'TRAIL'` order tagged `"trailing_stop_loss"` in the
cached OCA group with `outsideRth = True`. -/
def manage_positions (st : ManageState) : List OrderIntent :=
  let position_size := get_position_size st.positions st.s1_symbol
  if position_size ≠ 0 ∧ has_pending_trailing_stop_order st.open_trades = false then
    match st.s1_bars.getLast? with
    | none => []
    | some last_bar =>
      let entry_price? : Option ℚ :=
        match st.entry_price with
        | some p => some p
        | none =>
          match st.trades.getLast? with
          | some last_trade =>
            if last_trade.symbol = st.s1_symbol then
              some last_trade.avgFillPrice
            else none
          | none => none
      match entry_price? with
      | none => []
      | some entry_price =>
        let trailing_stop_loss_distance := st.trailing_stoploss * 0.25
        let trailing_stop_loss_trigger_distance :=
          st.trailing_stoploss_trigger * 0.25
        if position_size > 0 then
          let distance := last_bar.high - entry_price
          if distance ≥ trailing_stop_loss_trigger_distance then
            [{ action := OrderAction.SELL, quantity := position_size,
               kind := OrderKind.trail, stopPrice := none,
               auxPrice := some trailing_stop_loss_distance,
               trailStopPrice := some (last_bar.close - trailing_stop_loss_distance),
               orderRef := "trailing_stop_loss", ocaGroup := st.oca_group,
               outsideRth := true }]
          else []
        else if position_size < 0 then
          let distance := entry_price - last_bar.low
          if distance ≥ trailing_stop_loss_trigger_distance then
            [{ action := OrderAction.BUY, quantity := abs position_size,
               kind := OrderKind.trail, stopPrice := none,
               auxPrice := some trailing_stop_loss_distance,
               trailStopPrice := some (last_bar.close + trailing_stop_loss_distance),
               orderRef := "trailing_stop_loss", ocaGroup := st.oca_group,
               outsideRth := true }]
          else []
        else []
  else []

theorem haFrom_length (bars : List Bar) (po pc : ℚ) :
    (compute_heikin_ashi_from po pc bars).haOpen.length = bars.length ∧
    (compute_heikin_ashi_from po pc bars).haHigh.length = bars.length ∧
    (compute_heikin_ashi_from po pc bars).haLow.length = bars.length ∧
    (compute_heikin_ashi_from po pc bars).haClose.length = bars.length := by
  induction bars generalizing po pc with
  | nil => simp [compute_heikin_ashi_from]
  | cons b rest ih =>
    obtain ⟨h1, h2, h3, h4⟩ := ih ((po + pc) / 2) (avgBar b)
    simp [compute_heikin_ashi_from, h1, h2, h3, h4]

theorem haFrom_close_getD (bars : List Bar) (po pc : ℚ) (i : ℕ)
    (hi : i < bars.length) :
    (compute_heikin_ashi_from po pc bars).haClose.getD i 0 =
      avgBar (bars.getD i ⟨0, 0, 0, 0⟩) := by
  induction bars generalizing po pc i with
  | nil => simp at hi
  | cons b rest ih =>
    cases i with
    | zero => simp [compute_heikin_ashi_from]
    | succ j =>
      simp only [compute_heikin_ashi_from, List.getD_cons_succ]
      exact ih _ _ j (by simpa using hi)

theorem haFrom_open_zero (bars : List Bar) (po pc : ℚ) (h : bars ≠ []) :
    (compute_heikin_ashi_from po pc bars).haOpen.getD 0 0 = (po + pc) / 2 := by
  cases bars with
  | nil => simp at h
  | cons b rest => simp [compute_heikin_ashi_from]

theorem haFrom_open_succ (bars : List Bar) (po pc : ℚ) (i : ℕ)
    (hi : i + 1 < bars.length) :
    (compute_heikin_ashi_from po pc bars).haOpen.getD (i + 1) 0 =
      ((compute_heikin_ashi_from po pc bars).haOpen.getD i 0 +
        (compute_heikin_ashi_from po pc bars).haClose.getD i 0) / 2 := by
  induction bars generalizing po pc i with
  | nil => simp at hi
  | cons b rest ih =>
    cases i with
    | zero =>
      have hr : rest ≠ [] := by
        cases rest
        · simp at hi
        · simp
      simp only [compute_heikin_ashi_from, List.getD_cons_succ, List.getD_cons_zero]
      exact haFrom_open_zero rest _ _ hr
    | succ j =>
      simp only [compute_heikin_ashi_from, List.getD_cons_succ]
      exact ih _ _ j (by simpa using hi)

theorem haFrom_high_getD (bars : List Bar) (po pc : ℚ) (i : ℕ)
    (hi : i < bars.length) :
    (compute_heikin_ashi_from po pc bars).haHigh.getD i 0 =
      max (bars.getD i ⟨0, 0, 0, 0⟩).high
        (max ((compute_heikin_ashi_from po pc bars).haOpen.getD i 0)
          ((compute_heikin_ashi_from po pc bars).haClose.getD i 0)) := by
  induction bars generalizing po pc i with
  | nil => simp at hi
  | cons b rest ih =>
    cases i with
    | zero => simp [compute_heikin_ashi_from]
    | succ j =>
      simp only [compute_heikin_ashi_from, List.getD_cons_succ]
      exact ih _ _ j (by simpa using hi)

theorem haFrom_low_getD (bars : List Bar) (po pc : ℚ) (i : ℕ)
    (hi : i < bars.length) :
    (compute_heikin_ashi_from po pc bars).haLow.getD i 0 =
      min (bars.getD i ⟨0, 0, 0, 0⟩).low
        (min ((compute_heikin_ashi_from po pc bars).haOpen.getD i 0)
          ((compute_heikin_ashi_from po pc bars).haClose.getD i 0)) := by
  induction bars generalizing po pc i with
  | nil => simp at hi
  | cons b rest ih =>
    cases i with
    | zero => simp [compute_heikin_ashi_from]
    | succ j =>
      simp only [compute_heikin_ashi_from, List.getD_cons_succ]
      exact ih _ _ j (by simpa using hi)

theorem cha_length (bars : List Bar) :
    (compute_heikin_ashi bars).haOpen.length = bars.length ∧
    (compute_heikin_ashi bars).haHigh.length = bars.length ∧
    (compute_heikin_ashi bars).haLow.length = bars.length ∧
    (compute_heikin_ashi bars).haClose.length = bars.length := by
  cases bars with
  | nil => simp [compute_heikin_ashi]
  | cons b rest =>
    obtain ⟨h1, h2, h3, h4⟩ := haFrom_length rest (avgBar b) (avgBar b)
    simp [compute_heikin_ashi, h1, h2, h3, h4]

theorem cha_close_getD (bars : List Bar) (i : ℕ) (hi : i < bars.length) :
    (compute_heikin_ashi bars).haClose.getD i 0 =
      avgBar (bars.getD i ⟨0, 0, 0, 0⟩) := by
  cases bars with
  | nil => simp at hi
  | cons b rest =>
    cases i with
    | zero => simp [compute_heikin_ashi]
    | succ j =>
      simp only [compute_heikin_ashi, List.getD_cons_succ]
      exact haFrom_close_getD rest _ _ j (by simpa using hi)

theorem cha_open_zero (bars : List Bar) :
    (compute_heikin_ashi bars).haOpen.getD 0 0 =
      (compute_heikin_ashi bars).haClose.getD 0 0 := by
  cases bars with
  | nil => simp [compute_heikin_ashi]
  | cons b rest => simp [compute_heikin_ashi]

theorem cha_open_succ (bars : List Bar) (i : ℕ) (hi : i + 1 < bars.length) :
    (compute_heikin_ashi bars).haOpen.getD (i + 1) 0 =
      ((compute_heikin_ashi bars).haOpen.getD i 0 +
        (compute_heikin_ashi bars).haClose.getD i 0) / 2 := by
  cases bars with
  | nil => simp at hi
  | cons b rest =>
    cases i with
    | zero =>
      have hr : rest ≠ [] := by
        cases rest
        · simp at hi
        · simp
      simp only [compute_heikin_ashi, List.getD_cons_succ, List.getD_cons_zero]
      rw [haFrom_open_zero rest _ _ hr]
    | succ j =>
      simp only [compute_heikin_ashi, List.getD_cons_succ]
      exact haFrom_open_succ rest _ _ j (by simpa using hi)

theorem cha_high_succ (bars : List Bar) (i : ℕ) (hi : i + 1 < bars.length) :
    (compute_heikin_ashi bars).haHigh.getD (i + 1) 0 =
      max (bars.getD (i + 1) ⟨0, 0, 0, 0⟩).high
        (max ((compute_heikin_ashi bars).haOpen.getD (i + 1) 0)
          ((compute_heikin_ashi bars).haClose.getD (i + 1) 0)) := by
  cases bars with
  | nil => simp at hi
  | cons b rest =>
    simp only [compute_heikin_ashi, List.getD_cons_succ]
    exact haFrom_high_getD rest _ _ i (by simpa using hi)

theorem cha_low_succ (bars : List Bar) (i : ℕ) (hi : i + 1 < bars.length) :
    (compute_heikin_ashi bars).haLow.getD (i + 1) 0 =
      min (bars.getD (i + 1) ⟨0, 0, 0, 0⟩).low
        (min ((compute_heikin_ashi bars).haOpen.getD (i + 1) 0)
          ((compute_heikin_ashi bars).haClose.getD (i + 1) 0)) := by
  cases bars with
  | nil => simp at hi
  | cons b rest =>
    simp only [compute_heikin_ashi, List.getD_cons_succ]
    exact haFrom_low_getD rest _ _ i (by simpa using hi)

theorem emaFrom_length (l : List ℚ) (alpha prev : ℚ) :
    (ema_from alpha prev l).length = l.length := by
  induction l generalizing prev with
  | nil => simp [ema_from]
  | cons p rest ih => simp [ema_from, ih]

theorem emaFrom_succ (l : List ℚ) (alpha prev : ℚ) (i : ℕ)
    (hi : i + 1 < l.length) :
    (ema_from alpha prev l).getD (i + 1) 0 =
      l.getD (i + 1) 0 * alpha + (ema_from alpha prev l).getD i 0 * (1 - alpha) := by
  induction l generalizing prev i with
  | nil => simp at hi
  | cons p rest ih =>
    cases i with
    | zero =>
      cases rest with
      | nil => simp at hi
      | cons q rest2 =>
        simp only [ema_from, List.getD_cons_succ, List.getD_cons_zero]
    | succ j =>
      simp only [ema_from, List.getD_cons_succ]
      exact ih _ j (by simpa using hi)

/-- Claim C6: for every raw bar sequence of length at least 1,
`compute_heikin_ashi` returns columns of exactly the input length with
`ha_close[i]` the row average, `ha_open[0] = ha_close[0]`, and for `i ≥ 1` the
recurrences `ha_open[i] = (ha_open[i-1] + ha_close[i-1]) / 2`,
`ha_high[i] = max(raw_high[i], ha_open[i], ha_close[i])` and
`ha_low[i] = min(raw_low[i], ha_open[i], ha_close[i])`; recomputation from the
same raw sequence yields the identical output. -/
theorem C6_heikin_ashi_recurrence (bars : List Bar) (hn : 1 ≤ bars.length) :
    (compute_heikin_ashi bars).haOpen.length = bars.length ∧
    (compute_heikin_ashi bars).haHigh.length = bars.length ∧
    (compute_heikin_ashi bars).haLow.length = bars.length ∧
    (compute_heikin_ashi bars).haClose.length = bars.length ∧
    (∀ i, i < bars.length →
      (compute_heikin_ashi bars).haClose.getD i 0 =
        avgBar (bars.getD i ⟨0, 0, 0, 0⟩)) ∧
    (compute_heikin_ashi bars).haOpen.getD 0 0 =
      (compute_heikin_ashi bars).haClose.getD 0 0 ∧
    (∀ i, 1 ≤ i → i < bars.length →
      (compute_heikin_ashi bars).haOpen.getD i 0 =
        ((compute_heikin_ashi bars).haOpen.getD (i - 1) 0 +
          (compute_heikin_ashi bars).haClose.getD (i - 1) 0) / 2 ∧
      (compute_heikin_ashi bars).haHigh.getD i 0 =
        max (bars.getD i ⟨0, 0, 0, 0⟩).high
          (max ((compute_heikin_ashi bars).haOpen.getD i 0)
            ((compute_heikin_ashi bars).haClose.getD i 0)) ∧
      (compute_heikin_ashi bars).haLow.getD i 0 =
        min (bars.getD i ⟨0, 0, 0, 0⟩).low
          (min ((compute_heikin_ashi bars).haOpen.getD i 0)
            ((compute_heikin_ashi bars).haClose.getD i 0))) ∧
    compute_heikin_ashi bars = compute_heikin_ashi bars := by
  obtain ⟨h1, h2, h3, h4⟩ := cha_length bars
  refine ⟨h1, h2, h3, h4, fun i hi => cha_close_getD bars i hi,
    cha_open_zero bars, ?_, rfl⟩
  intro i h1i hilen
  obtain ⟨j, rfl⟩ : ∃ j, i = j + 1 :=
    ⟨i - 1, (Nat.succ_pred_eq_of_pos h1i).symm⟩
  have hj : j + 1 - 1 = j := rfl
  rw [hj]
  exact ⟨cha_open_succ bars j hilen, cha_high_succ bars j hilen,
    cha_low_succ bars j hilen⟩

/-- Witness for C6 at the concrete two-bar input
`[{0,4,0,0}, {2,6,2,2}]`: the index-1 open recurrence instantiated there. -/
theorem C6_heikin_ashi_recurrence_witness :
    (compute_heikin_ashi [(⟨0, 4, 0, 0⟩ : Bar), ⟨2, 6, 2, 2⟩]).haOpen.getD 1 0 =
      ((compute_heikin_ashi [(⟨0, 4, 0, 0⟩ : Bar), ⟨2, 6, 2, 2⟩]).haOpen.getD 0 0 +
        (compute_heikin_ashi [(⟨0, 4, 0, 0⟩ : Bar), ⟨2, 6, 2, 2⟩]).haClose.getD 0 0) / 2 :=
  ((C6_heikin_ashi_recurrence [⟨0, 4, 0, 0⟩, ⟨2, 6, 2, 2⟩]
      (by simp)).2.2.2.2.2.2.1 1 (by simp) (by simp)).1

/-- Claim C7: for every non-empty price sequence and integer period at least 1,
`compute_ema` succeeds and returns a sequence of the same length with
`ema[0] = price[0]` and `ema[i] = price[i]*alpha + ema[i-1]*(1-alpha)` for
`i ≥ 1`, where `alpha = 2/(period+1)`. -/
theorem C7_ema_recurrence (prices : List ℚ) (period : ℤ)
    (hp : prices ≠ []) (hper : 1 ≤ period) :
    ∃ es, compute_ema prices period = some es ∧
      es.length = prices.length ∧
      es.getD 0 0 = prices.getD 0 0 ∧
      ∀ i, i + 1 < prices.length →
        es.getD (i + 1) 0 =
          prices.getD (i + 1) 0 * (2 / ((period : ℚ) + 1)) +
            es.getD i 0 * (1 - 2 / ((period : ℚ) + 1)) := by
  cases prices with
  | nil => simp at hp
  | cons p rest =>
    have hz : ¬(period + 1 = 0) := by omega
    refine ⟨p :: ema_from (2 / ((period : ℚ) + 1)) p rest, ?_, ?_, ?_, ?_⟩
    · simp [compute_ema, hz]
    · simp [emaFrom_length]
    · simp
    · intro i hi
      cases i with
      | zero =>
        cases rest with
        | nil => simp at hi
        | cons q rest2 =>
          simp only [ema_from, List.getD_cons_succ, List.getD_cons_zero]
      | succ j =>
        simp only [List.getD_cons_succ]
        exact emaFrom_succ rest _ _ j (by simpa using hi)

/-- Witness for C7 at `prices = [1, 2]`, `period = 1`. -/
theorem C7_ema_recurrence_witness :
    ∃ es, compute_ema [(1 : ℚ), 2] 1 = some es ∧
      es.length = ([(1 : ℚ), 2]).length ∧
      es.getD 0 0 = ([(1 : ℚ), 2]).getD 0 0 ∧
      ∀ i, i + 1 < ([(1 : ℚ), 2]).length →
        es.getD (i + 1) 0 =
          ([(1 : ℚ), 2]).getD (i + 1) 0 * (2 / (((1 : ℤ) : ℚ) + 1)) +
            es.getD i 0 * (1 - 2 / (((1 : ℤ) : ℚ) + 1)) :=
  C7_ema_recurrence [1, 2] 1 (by simp) (by omega)

/-- Counterexample to claim C2 at the single bar `{o=0, h=4, l=0, c=0}`: the
code leaves `ha_high[0]` and `ha_low[0]` as copies of `ha_close[0] = 1`, so
they equal neither the raw high `4` nor the raw low `0`. -/
theorem C2_counterexample :
    (compute_heikin_ashi [⟨0, 4, 0, 0⟩]).haHigh.getD 0 0 ≠ (4 : ℚ) ∧
    (compute_heikin_ashi [⟨0, 4, 0, 0⟩]).haLow.getD 0 0 ≠ (0 : ℚ) ∧
    (compute_heikin_ashi [⟨0, 4, 0, 0⟩]).haHigh = [1] ∧
    (compute_heikin_ashi [⟨0, 4, 0, 0⟩]).haLow = [1] := by
  norm_num [compute_heikin_ashi, compute_heikin_ashi_from, avgBar]

/-- Claim C2, amended: for a single-bar input `{o,h,l,c}` every output column
of `compute_heikin_ashi` holds the one value `(o+h+l+c)/4`; index 0 of any
input likewise has `ha_open[0] = ha_high[0] = ha_low[0] = ha_close[0]` equal to
the first row's average, not the raw high/low. -/
theorem C2_single_bar_amended (b : Bar) (rest : List Bar) :
    compute_heikin_ashi [b] = ⟨[avgBar b], [avgBar b], [avgBar b], [avgBar b]⟩ ∧
    (compute_heikin_ashi (b :: rest)).haOpen.getD 0 0 = avgBar b ∧
    (compute_heikin_ashi (b :: rest)).haHigh.getD 0 0 = avgBar b ∧
    (compute_heikin_ashi (b :: rest)).haLow.getD 0 0 = avgBar b ∧
    (compute_heikin_ashi (b :: rest)).haClose.getD 0 0 = avgBar b := by
  refine ⟨?_, ?_, ?_, ?_, ?_⟩ <;>
    simp [compute_heikin_ashi, compute_heikin_ashi_from]

/-- Counterexample to claim C3 at `prices = [1, 2]`, `period = 0 < 1`:
`compute_ema` does not fail — there is no period validation — and returns
`[1, 3]` (with `alpha = 2/(0+1) = 2`). -/
theorem C3_counterexample :
    compute_ema [1, 2] 0 = some [1, 3] ∧
    (compute_ema [1, 2] 0).isSome = true := by
  constructor
  · norm_num [compute_ema, ema_from]
  · norm_num [compute_ema]

/-- Claim C3, amended: `compute_ema` performs no validation of the period.
Every period other than `-1` (including `0` and negative values) is accepted on
a non-empty price sequence and smoothed with `alpha = 2/(period+1)`; only
`period = -1` fails, by zero division, and no `InvalidPeriod` error exists
anywhere. -/
theorem C3_no_period_validation (prices : List ℚ) (period : ℤ)
    (hp : prices ≠ []) (hz : period + 1 ≠ 0) :
    (compute_ema prices period).isSome = true ∧
    compute_ema prices (-1) = none := by
  constructor
  · cases prices with
    | nil => simp at hp
    | cons p rest => simp [compute_ema, hz]
  · norm_num [compute_ema]

/-- Witness for the amended C3 at `prices = [1, 2]`, `period = 0`. -/
theorem C3_no_period_validation_witness :
    (compute_ema [(1 : ℚ), 2] 0).isSome = true ∧
    compute_ema [(1 : ℚ), 2] (-1) = none :=
  C3_no_period_validation [1, 2] 0 (by simp) (by omega)

/-- Claim C1 fails on the code: at the one-bar sequence `{o=0, h=4, l=0, c=0}`
with `ema_period = 1`, `on_s1_bar_update` stores an `'ema'` column computed
over the RAW close prices (`df['close'] = [0]`, giving `ema = [0]`), while the
EMA over the Heikin-Ashi closes — the behaviour of `start` and of
`on_s2_bar_update`, and the behaviour the claim states — gives `ema = [1]`. -/
theorem C1_s1_update_uses_raw_close :
    on_s1_bar_update [⟨0, 4, 0, 0⟩] 1 = some ⟨[1], [1], [1], [1], [0]⟩ ∧
    s1_indicator_init [⟨0, 4, 0, 0⟩] 1 = some ⟨[1], [1], [1], [1], [1]⟩ ∧
    on_s1_bar_update [⟨0, 4, 0, 0⟩] 1 ≠ s1_indicator_init [⟨0, 4, 0, 0⟩] 1 := by
  have h1 : on_s1_bar_update [(⟨0, 4, 0, 0⟩ : Bar)] 1 =
      some ⟨[1], [1], [1], [1], [0]⟩ := by
    norm_num [on_s1_bar_update, compute_heikin_ashi, compute_heikin_ashi_from,
      avgBar, compute_ema, ema_from, HaBars.withEma]
  have h2 : s1_indicator_init [(⟨0, 4, 0, 0⟩ : Bar)] 1 =
      some ⟨[1], [1], [1], [1], [1]⟩ := by
    norm_num [s1_indicator_init, compute_heikin_ashi, compute_heikin_ashi_from,
      avgBar, compute_ema, ema_from, HaBars.withEma]
  refine ⟨h1, h2, ?_⟩
  rw [h1, h2]
  simp [HaDf.mk.injEq]

/-- Claim C4: `entry` emits an order only when there is no S1 position, no
pending trailing-stop order, and the realized daily PnL lies in the closed
interval `[lower_pnl, upper_pnl]`; a PnL of `-150` with bounds `[-100, 100]`
suppresses entry regardless of any signal, while `-50` lets the configured
rule variant run. -/
theorem C4_entry_gating (st : StrategyState) :
    (entry st ≠ [] →
      has_open_position st.positions st.s1_symbol = false ∧
      has_pending_trailing_stop_order st.open_trades = false ∧
      st.lower_pnl ≤ get_daily_pnl st.account_summary ∧
      get_daily_pnl st.account_summary ≤ st.upper_pnl) ∧
    (st.lower_pnl = -100 → st.upper_pnl = 100 →
      get_daily_pnl st.account_summary = -150 → entry st = []) ∧
    (st.lower_pnl = -100 → st.upper_pnl = 100 →
      get_daily_pnl st.account_summary = -50 →
      has_open_position st.positions st.s1_symbol = false →
      has_pending_trailing_stop_order st.open_trades = false →
      st.condition = "1" →
      entry st = condition1_entry st.s1_ha_bars st.size) := by
  refine ⟨?_, ?_, ?_⟩
  · intro hne
    by_cases h1 : has_open_position st.positions st.s1_symbol = true
    · exact absurd (by simp [entry, h1]) hne
    by_cases h2 : has_pending_trailing_stop_order st.open_trades = true
    · exact absurd (by simp [entry, h2]) hne
    by_cases h3 :
        is_pnl_within_limits st.lower_pnl st.upper_pnl st.account_summary = true
    · have hb := of_decide_eq_true (by simpa [is_pnl_within_limits] using h3)
      exact ⟨by simpa using h1, by simpa using h2, hb.1, hb.2⟩
    · exact absurd (by
        simp only [Bool.not_eq_true] at h1 h2 h3
        simp [entry, h1, h2, h3]) hne
  · intro hl hu hp
    have hpnl :
        is_pnl_within_limits st.lower_pnl st.upper_pnl st.account_summary = false := by
      simp only [is_pnl_within_limits, hl, hu, hp, decide_eq_false_iff_not]
      norm_num
    by_cases h1 : has_open_position st.positions st.s1_symbol = true
    · simp [entry, h1]
    by_cases h2 : has_pending_trailing_stop_order st.open_trades = true
    · simp [entry, h2]
    simp only [Bool.not_eq_true] at h1 h2
    simp [entry, h1, h2, hpnl]
  · intro hl hu hp h1 h2 hc
    have hpnl :
        is_pnl_within_limits st.lower_pnl st.upper_pnl st.account_summary = true := by
      simp only [is_pnl_within_limits, hl, hu, hp, decide_eq_true_eq]
      norm_num
    simp [entry, h1, h2, hpnl, hc]

/-- Witness for C4: with no position, no pending trailing stop, realized PnL
`-50` inside `[-100, 100]` and condition `"1"`, `entry` runs the rule variant. -/
theorem C4_entry_gating_witness :
    entry { positions := [], open_trades := [],
            account_summary := [⟨"RealizedPnL", "USD", -50⟩],
            lower_pnl := -100, upper_pnl := 100, condition := "1", size := 1,
            s1_symbol := "MNQ",
            s1_ha_bars := some ⟨[100, 100], [110, 110], [90, 90], [105, 105], [100, 100]⟩,
            s2_ha_bars := none } =
      condition1_entry
        (some ⟨[100, 100], [110, 110], [90, 90], [105, 105], [100, 100]⟩) 1 :=
  (C4_entry_gating _).2.2 rfl rfl (by norm_num [get_daily_pnl, List.find?])
    rfl rfl rfl

/-- Claim C5: `condition1_entry` with at least two Heikin-Ashi rows places one
BUY market order tagged "entry" of the configured size when the second-to-last
Heikin-Ashi close strictly exceeds the EMA at the same index, one SELL order
when it is strictly below, and nothing on equality; with fewer than two rows
(or no frame at all) it places nothing. -/
theorem C5_condition1_entry_cases (df : HaDf) (size : ℤ) (h2 : 1 < df.len) :
    (df.close.getD (df.len - 2) 0 > df.ema.getD (df.len - 2) 0 →
      condition1_entry (some df) size = [entryOrder OrderAction.BUY size]) ∧
    (df.close.getD (df.len - 2) 0 < df.ema.getD (df.len - 2) 0 →
      condition1_entry (some df) size = [entryOrder OrderAction.SELL size]) ∧
    (df.close.getD (df.len - 2) 0 = df.ema.getD (df.len - 2) 0 →
      condition1_entry (some df) size = []) ∧
    (∀ df2 : HaDf, ¬1 < HaDf.len df2 → condition1_entry (some df2) size = []) ∧
    condition1_entry none size = [] := by
  refine ⟨?_, ?_, ?_, ?_, rfl⟩
  · intro hgt
    simp only [condition1_entry]
    rw [if_pos h2, if_pos hgt]
  · intro hlt
    have hngt : ¬df.close.getD (df.len - 2) 0 > df.ema.getD (df.len - 2) 0 :=
      not_lt.mpr hlt.le
    simp only [condition1_entry]
    rw [if_pos h2, if_neg hngt, if_pos hlt]
  · intro heq
    simp only [condition1_entry]
    rw [if_pos h2, if_neg (by rw [heq]; exact lt_irrefl _),
      if_neg (by rw [heq]; exact lt_irrefl _)]
  · intro df2 h
    simp only [condition1_entry]
    rw [if_neg h]

/-- Witness for C5: second-to-last Heikin-Ashi close `105` against EMA `100`
yields exactly one BUY entry order of size 2. -/
theorem C5_condition1_entry_cases_witness :
    condition1_entry
        (some ⟨[100, 100], [110, 110], [90, 90], [105, 105], [100, 100]⟩) 2 =
      [entryOrder OrderAction.BUY 2] :=
  (C5_condition1_entry_cases
      ⟨[100, 100], [110, 110], [90, 90], [105, 105], [100, 100]⟩ 2
      (by norm_num [HaDf.len])).1 (by norm_num [HaDf.len])

/-- Claim C8: a fill confirmation for an "entry"-tagged order with price `p`
records entry price `p`, derives the OCA group `"oca_" + orderId`, and emits
exactly one stop order tagged "fixed_stop_loss" in that group with the
opposite action, the order's quantity, stop price `p ∓ fixed_stoploss*0.25`,
and `outsideRth` set. -/
theorem C8_fill_emits_fixed_stop (fixed_stoploss : ℚ) (ev : FillEvent)
    (href : ev.orderRef = "entry") :
    (ev.action = "BUY" →
      on_order_filled fixed_stoploss ev =
        some (ev.fillPrice, "oca_" ++ toString ev.orderId,
          { action := OrderAction.SELL, quantity := ev.totalQuantity,
            kind := OrderKind.stop,
            stopPrice := some (ev.fillPrice - fixed_stoploss * 0.25),
            auxPrice := none, trailStopPrice := none,
            orderRef := "fixed_stop_loss",
            ocaGroup := some ("oca_" ++ toString ev.orderId),
            outsideRth := true })) ∧
    (ev.action = "SELL" →
      on_order_filled fixed_stoploss ev =
        some (ev.fillPrice, "oca_" ++ toString ev.orderId,
          { action := OrderAction.BUY, quantity := ev.totalQuantity,
            kind := OrderKind.stop,
            stopPrice := some (ev.fillPrice + fixed_stoploss * 0.25),
            auxPrice := none, trailStopPrice := none,
            orderRef := "fixed_stop_loss",
            ocaGroup := some ("oca_" ++ toString ev.orderId),
            outsideRth := true })) := by
  constructor
  · intro ha
    simp [on_order_filled, href, ha]
  · intro ha
    simp [on_order_filled, href, ha]

/-- Witness for C8: a BUY entry fill at price 100, quantity 2, order id 5,
with `fixed_stoploss = 8`, yields a SELL stop at `100 - 2 = 98`. -/
theorem C8_fill_emits_fixed_stop_witness :
    on_order_filled 8 ⟨"entry", "BUY", 2, 5, 100⟩ =
      some (100, "oca_" ++ toString (5 : ℕ),
        { action := OrderAction.SELL, quantity := 2, kind := OrderKind.stop,
          stopPrice := some (100 - 8 * 0.25),
          auxPrice := none, trailStopPrice := none,
          orderRef := "fixed_stop_loss",
          ocaGroup := some ("oca_" ++ toString (5 : ℕ)),
          outsideRth := true }) :=
  (C8_fill_emits_fixed_stop 8 ⟨"entry", "BUY", 2, 5, 100⟩ rfl).1 rfl

/-- Claim C9: while a "trailing_stop_loss"-tagged order is already open,
`manage_positions` emits nothing, whatever the rest of the state — in
particular however large the favorable excursion is. -/
theorem C9_no_trailing_reemission (st : ManageState)
    (h : has_pending_trailing_stop_order st.open_trades = true) :
    manage_positions st = [] := by
  simp [manage_positions, h]

/-- Witness for C9: long one contract from 100, last high 1000 (excursion 900
far above the trigger 1), yet a pending trailing stop suppresses any order. -/
theorem C9_no_trailing_reemission_witness :
    manage_positions
      { positions := [⟨"MNQ", 1⟩],
        open_trades := [⟨"MNQ", "trailing_stop_loss"⟩],
        s1_bars := [⟨100, 1000, 90, 900⟩],
        entry_price := some 100, trades := [], oca_group := some "oca_1",
        trailing_stoploss := 4, trailing_stoploss_trigger := 4,
        s1_symbol := "MNQ" } = [] :=
  C9_no_trailing_reemission _ (by simp [has_pending_trailing_stop_order])

/-- Claim C10: when no account-summary row has tag 'RealizedPnL' and currency
'USD', `get_daily_pnl` returns 0, so the PnL gate passes exactly when
`lower_pnl ≤ 0 ≤ upper_pnl`. -/
theorem C10_missing_pnl_defaults (account_summary : List AccountSummaryItem)
    (lower_pnl upper_pnl : ℚ)
    (h : ∀ s ∈ account_summary, ¬(s.tag = "RealizedPnL" ∧ s.currency = "USD")) :
    get_daily_pnl account_summary = 0 ∧
    (is_pnl_within_limits lower_pnl upper_pnl account_summary = true ↔
      lower_pnl ≤ 0 ∧ 0 ≤ upper_pnl) := by
  have hfind : account_summary.find?
      (fun s => decide (s.tag = "RealizedPnL" ∧ s.currency = "USD")) = none := by
    rw [List.find?_eq_none]
    intro s hs
    simpa using h s hs
  have hg : get_daily_pnl account_summary = 0 := by
    unfold get_daily_pnl
    rw [hfind]
  refine ⟨hg, ?_⟩
  simp [is_pnl_within_limits, hg]

/-- Witness for C10: an account summary with only a 'NetLiquidation' row. -/
theorem C10_missing_pnl_defaults_witness :
    get_daily_pnl [⟨"NetLiquidation", "USD", 5⟩] = 0 ∧
    (is_pnl_within_limits (-100) 100 [⟨"NetLiquidation", "USD", 5⟩] = true ↔
      (-100 : ℚ) ≤ 0 ∧ (0 : ℚ) ≤ 100) :=
  C10_missing_pnl_defaults [⟨"NetLiquidation", "USD", 5⟩] (-100) 100 (by simp)
